import Mathlib

/-!
The cchat server: client registry, message queue, broadcaster, connection handler.

A shallow embedding of `src/server.c`.

* A C array is a list of its cells; a pointer cell is an `Option` (`none` is `NULL`).
* A C string is the list of its characters before the terminating NUL.
* A `char*` stored in the message queue is an address (`Ptr`); the text it points to
  lives in `Server.mem`, so a buffer that is rewritten after its address was queued
  is seen rewritten by the broadcaster.
* `write` and `close` on sockets are recorded in logs (`Server.out`, `Server.closed`);
  whether a `write` fails is decided by the environment (`Server.wfail`).
* A buffer lives as long as the function whose local array it is (for `handleNewClient`:
  until the thread exits); `Server.mem` gives `none` for an address that is not live, and
  so does a pointer to a `client_t` that was freed.
* A call that has to wait in `pthread_cond_wait` is `Fault.blocked`: it does not return
  from the state it was called in. A string operation that runs past the end of its
  destination buffer is `Fault.overflow`. A read through a pointer to memory that is no
  longer live is `Fault.dangling`.
* Memory that `malloc` returned and the code never wrote is a parameter of the function
  that allocates it.
* Locks are not modelled: every function below is one uninterrupted step.
-/

namespace CChat

/-! ## Constants -/

def MAX_USERNAME : Nat := 20
def MAX_MESSAGES : Nat := 100
def MAX_CLIENTS : Nat := 12
def BUFFER_SIZE : Nat := 256

/-- The text `const char* hello`. -/
def hello : List Char := " has entered the chat.\n".toList

/-- The text `const char* goodbye`. -/
def goodbye : List Char := " has left the chat.\n".toList

/-- The literal `"quit()\n"` compared against the read buffer. -/
def quitToken : List Char := "quit()\n".toList

/-- The literal `"Online: \n"` that starts the roster. -/
def onlineHeader : List Char := "Online: \n".toList

/-- The NUL byte. -/
def NUL : Char := Char.ofNat 0

/-- Ways a call fails to return normally. -/
inductive Fault where
  | blocked
  | overflow
  | dangling
deriving DecidableEq, Repr

/-! ## C strings in bounded buffers -/

/-- The C string held by a zero-filled buffer into which `data` was read: the characters
before the first NUL. -/
def cstr (data : List Char) : List Char :=
  data.takeWhile (fun ch => ch != NUL)

/-- The call `strcpy(dst, src)` for a destination of `cap` bytes: `strlen(src) + 1` bytes are
written. -/
def strcpy (cap : Nat) (src : List Char) : Except Fault (List Char) :=
  if src.length + 1 ≤ cap then .ok src else .error .overflow

/-- The call `strncat(dst, src, strlen(src))` (and `strcat(dst, src)`) for a destination of
`cap` bytes holding the C string `dst`: `strlen(src) + 1` bytes are written after it. -/
def strncat (cap : Nat) (dst src : List Char) : Except Fault (List Char) :=
  if dst.length + src.length + 1 ≤ cap then .ok (dst ++ src) else .error .overflow

/-- The call `strncpy(dst, src, strlen(src))` into a zero-filled destination of `cap` bytes:
`strlen(src)` bytes are written, no terminator. -/
def strncpy (cap : Nat) (src : List Char) : Except Fault (List Char) :=
  if src.length ≤ cap then .ok src else .error .overflow

/-! ## Scanning an array of pointers -/

/-- The loop `for (i = lo; i < lo + fuel; i++) if (slots[i] == NULL) break;`:
the index at which it breaks, if it does. -/
def firstNull {α : Type} (slots : List (Option α)) : Nat → Nat → Option Nat
  | 0, _ => none
  | fuel + 1, i =>
    match slots[i]? with
    | some none => some i
    | _ => firstNull slots fuel (i + 1)

/-- The cells `a[0], ..., a[n-1]` of an array of pointers, as a loop over `i < n` reads
them. -/
def cells {α : Type} (a : List (Option α)) (n : Nat) : List (Option α) :=
  (List.range n).map (fun i => (a[i]?).join)

/-! ## Client and client queue -/

/-- The struct `client_t`. -/
structure client_t where
  id : Int
  sockfd : Int
  username : List Char
deriving DecidableEq, Repr

/-- The function `clientInit`: the id is 0 until registration, the name is copied with
`strcpy` into the `MAX_USERNAME`-byte field. -/
def clientInit (fd : Int) (username : List Char) : Except Fault client_t :=
  match strcpy MAX_USERNAME username with
  | .ok name => .ok { id := 0, sockfd := fd, username := name }
  | .error e => .error e

/-- The struct `client_queue` (without its mutex and condition). -/
structure client_queue where
  count : Int
  data : List (Option client_t)
deriving DecidableEq, Repr

/-- The function `clientQueueInit`: the count becomes 0; the `MAX_CLIENTS` cells are not
written and stay as `malloc` returned them (`raw`; a cell that is not `NULL` is a `some`). -/
def clientQueueInit (raw : List (Option client_t)) : client_queue :=
  { count := 0, data := raw }

/-- The registry that `clientQueueInit` leaves when the memory it got was zero: count 0 and
all `MAX_CLIENTS` cells `NULL`. -/
def emptyRegistry : client_queue :=
  clientQueueInit (List.replicate MAX_CLIENTS none)

/-- The function `clientQueueAddClient`. When `count == MAX_CLIENTS` it waits on a condition
that no code signals. Otherwise it scans for the first `NULL` cell; when there is one the
client gets that index as id and is stored there, and the count grows; when there is none
nothing changes. Returns the queue and the client as the caller sees it afterwards. -/
def clientQueueAddClient (q : client_queue) (c : client_t) :
    Except Fault (client_queue × client_t) :=
  if q.count = (MAX_CLIENTS : Int) then .error .blocked
  else
    match firstNull q.data MAX_CLIENTS 0 with
    | some i =>
      let c' : client_t := { c with id := (i : Int) }
      .ok ({ count := q.count + 1, data := q.data.set i (some c') }, c')
    | none => .ok (q, c)

/-- The function `clientQueuePopClient` on a pointer `c` (`none` when the struct it pointed
to was freed): `c->id` is read, the cell `data[c->id]` becomes `NULL`, the count drops by
one and `free(c)` ends the life of the struct. Returns the queue and what `c` points to
afterwards. An id outside the array is an out-of-bounds write. -/
def clientQueuePopClient (q : client_queue) (c : Option client_t) :
    Except Fault (client_queue × Option client_t) :=
  match c with
  | none => .error .dangling
  | some cl =>
    if 0 ≤ cl.id ∧ cl.id < (MAX_CLIENTS : Int) then
      .ok ({ count := q.count - 1, data := q.data.set cl.id.toNat none }, none)
    else .error .overflow

/-- The names a scan `for (i = 0; i < MAX_CLIENTS; i++) if (q->data[i] != NULL)` meets,
in slot order (the loop of `clientQueuePrintClients` and of `welcomeClient`). -/
def clientQueueNames (q : client_queue) : List (List Char) :=
  (cells q.data MAX_CLIENTS).filterMap (fun cell => cell.map (fun c => c.username))

/-- Registers the clients of a list one after the other, each with `clientQueueAddClient`;
returns the final queue and the clients as registered. -/
def addClients : client_queue → List client_t → Except Fault (client_queue × List client_t)
  | q, [] => .ok (q, [])
  | q, c :: cs =>
    match clientQueueAddClient q c with
    | .error e => .error e
    | .ok (q1, c1) =>
      match addClients q1 cs with
      | .error e => .error e
      | .ok (q2, cs2) => .ok (q2, c1 :: cs2)

/-- A registration stored the client: the client returned is in the cell named by its id. -/
def stored (q : client_queue) (c : client_t) : Prop :=
  0 ≤ c.id ∧ q.data[c.id.toNat]? = some (some c)

instance (q : client_queue) (c : client_t) : Decidable (stored q c) := by
  unfold stored; infer_instance

/-- The number of occupied cells. -/
def occupied (q : client_queue) : Nat :=
  ((cells q.data MAX_CLIENTS).filter Option.isSome).length

/-- A registry state: the array has `MAX_CLIENTS` cells and `count` is the number of
occupied ones. -/
def client_queue.wf (q : client_queue) : Prop :=
  q.data.length = MAX_CLIENTS ∧ q.count = (occupied q : Int)

instance (q : client_queue) : Decidable q.wf := by
  unfold client_queue.wf; infer_instance

/-! ## Message queue -/

/-- An address of a character buffer (a `char*`). -/
abbrev Ptr := Nat

/-- The struct `message_queue` (without its mutex and condition). -/
structure message_queue where
  count : Int
  messages : List (Option Ptr)
  ids : List Int
deriving DecidableEq, Repr

/-- The function `messageQueueInit`: it writes neither the count nor the cells, which stay
as `malloc` returned them (`rawCount`, `rawMessages`, `rawIds`). -/
def messageQueueInit (rawCount : Int) (rawMessages : List (Option Ptr)) (rawIds : List Int) :
    message_queue :=
  { count := rawCount, messages := rawMessages, ids := rawIds }

/-- The queue that `messageQueueInit` leaves when the memory it got was zero: count 0 and all
`MAX_MESSAGES` cells `NULL`. -/
def emptyQueue : message_queue :=
  messageQueueInit 0 (List.replicate MAX_MESSAGES none) (List.replicate MAX_MESSAGES 0)

/-- The function `messageQueueAddMessage`: the pointer and the id go into the first `NULL`
cell and the count grows; when no cell is `NULL` the loop ends without storing anything. -/
def messageQueueAddMessage (q : message_queue) (msg : Ptr) (id : Int) : message_queue :=
  match firstNull q.messages MAX_MESSAGES 0 with
  | some i => { count := q.count + 1, messages := q.messages.set i (some msg), ids := q.ids.set i id }
  | none => q

/-- The pointers waiting in the queue, in slot order. -/
def pending (q : message_queue) : List Ptr :=
  (cells q.messages MAX_MESSAGES).filterMap id

/-! ## Server state -/

/-- One call `write(fd, msg, strlen(msg))` on a client socket and whether it failed. -/
structure WriteCall where
  fd : Int
  data : List Char
  failed : Bool
deriving DecidableEq, Repr

/-- The globals `clients` and `messages`, the character buffers that queued pointers refer
to (`none` for an address whose buffer is not live), and the outside world: which sockets
fail on `write`, the log of `write` calls and the log of sockets closed. -/
structure Server where
  clients : client_queue
  messages : message_queue
  mem : Ptr → Option (List Char)
  wfail : Int → Bool
  out : List WriteCall
  closed : List Int

/-- The state `main` reaches before `startServer`, for the memory that the two `malloc`
calls returned. No message buffer is live yet. -/
def serverInit (wfail : Int → Bool) (rawClients : List (Option client_t)) (rawCount : Int)
    (rawMessages : List (Option Ptr)) (rawIds : List Int) : Server :=
  { clients := clientQueueInit rawClients,
    messages := messageQueueInit rawCount rawMessages rawIds,
    mem := fun _ => none, wfail := wfail, out := [], closed := [] }

/-- The state `main` reaches before `startServer` when the memory it got was zero. -/
def freshServer (wfail : Int → Bool) : Server :=
  serverInit wfail (List.replicate MAX_CLIENTS none) 0 (List.replicate MAX_MESSAGES none)
    (List.replicate MAX_MESSAGES 0)

/-- The memory after the buffer at address `p` got the content `v`: `some` for a C string
written into a live buffer, `none` when the buffer stops being live. -/
def store (mem : Ptr → Option (List Char)) (p : Ptr) (v : Option (List Char)) :
    Ptr → Option (List Char) :=
  fun a => if a = p then v else mem a

/-! ## Broadcaster -/

/-- The writes of the text `text` to the socket of every client in the registry, in slot
order; a failed write is reported and the loop goes on. -/
def fanOutText (q : client_queue) (wfail : Int → Bool) (text : List Char) : List WriteCall :=
  (cells q.data MAX_CLIENTS).filterMap
    (fun cell => cell.map
      (fun user => { fd := user.sockfd, data := text, failed := wfail user.sockfd }))

/-- The body of the inner loop of `handleBroadcast` for one cell of the registry and the
message `msg` points to (`none` when that buffer is not live): for a client,
`write(user.sockfd, msg, strlen(msg))` reads the text and writes it. -/
def fanOutStep (wfail : Int → Bool) (msg : Option (List Char)) (out : List WriteCall)
    (cell : Option client_t) : Except Fault (List WriteCall) :=
  match cell with
  | none => .ok out
  | some user =>
    match msg with
    | some text =>
      .ok (out ++ [{ fd := user.sockfd, data := text, failed := wfail user.sockfd }])
    | none => .error .dangling

/-- The inner loop of `handleBroadcast`: the message is written to the socket of every client
in the registry, in slot order; a failed write is reported and the loop goes on. -/
def fanOut (q : client_queue) (wfail : Int → Bool) (msg : Option (List Char)) :
    Except Fault (List WriteCall) :=
  (cells q.data MAX_CLIENTS).foldlM (fanOutStep wfail msg) []

/-- The body of the outer loop of `handleBroadcast` at index `i`: a non-`NULL` message is
written to every client, then the count drops and the cell becomes `NULL`. -/
def broadcastSlot (s : Server) (i : Nat) : Except Fault Server :=
  match s.messages.messages[i]? with
  | some (some msg) =>
    match fanOut s.clients s.wfail (s.mem msg) with
    | .error e => .error e
    | .ok ws =>
      .ok { s with
        out := s.out ++ ws
        messages := { s.messages with
          count := s.messages.count - 1
          messages := s.messages.messages.set i none } }
  | _ => .ok s

/-- One round of the `while (TRUE)` loop of `handleBroadcast`: it waits while the count is 0,
then passes once over all `MAX_MESSAGES` cells. -/
def handleBroadcast (s : Server) : Except Fault Server :=
  if s.messages.count = 0 then .error .blocked
  else (List.range MAX_MESSAGES).foldlM broadcastSlot s

/-! ## Connection handler -/

/-- The roster loop body of `welcomeClient` for one cell: the name and a newline are
appended to `onlineStatus`. -/
def rosterStep (buf : List Char) (cell : Option client_t) : Except Fault (List Char) :=
  match cell with
  | some c =>
    match strncat BUFFER_SIZE buf c.username with
    | .ok b => strncat BUFFER_SIZE b ['\n']
    | .error e => .error e
  | none => .ok buf

/-- The buffer `onlineStatus` that `welcomeClient` builds. -/
def roster (q : client_queue) : Except Fault (List Char) :=
  match strncat BUFFER_SIZE [] onlineHeader with
  | .ok hdr => (cells q.data MAX_CLIENTS).foldlM rosterStep hdr
  | .error e => .error e

/-- The first statements of `welcomeClient` (up to the call of `messageQueueAddMessage`): the
join text is built in the local array `message`, whose address is `buf`, and that address is
queued with the client's id. -/
def welcomeAnnounce (s : Server) (buf : Ptr) (client : client_t) : Except Fault Server :=
  match strncat BUFFER_SIZE [] client.username with
  | .error e => .error e
  | .ok m1 =>
    match strncat BUFFER_SIZE m1 hello with
    | .error e => .error e
    | .ok m2 =>
      .ok { s with
        mem := store s.mem buf (some m2)
        messages := messageQueueAddMessage s.messages buf client.id }

/-- The function `welcomeClient`; `buf` is the address of its local `message`. After the
announcement the roster is built and written to the client's socket; when the function
returns, its local `message` stops being live. -/
def welcomeClient (s : Server) (buf : Ptr) (client : client_t) : Except Fault Server :=
  match welcomeAnnounce s buf client with
  | .error e => .error e
  | .ok s1 =>
    match roster s1.clients with
    | .error e => .error e
    | .ok online =>
      .ok { s1 with
        out := s1.out ++ [{ fd := client.sockfd, data := online, failed := s1.wfail client.sockfd }]
        mem := store s1.mem buf none }

/-- The first statements of `dismissClient` (up to the call of `messageQueueAddMessage`): the
leave text is built in the local array `message`, whose address is `buf`, and that address
is queued with the id -1. -/
def dismissAnnounce (s : Server) (buf : Ptr) (client : client_t) : Except Fault Server :=
  match strncat BUFFER_SIZE [] client.username with
  | .error e => .error e
  | .ok m1 =>
    match strncat BUFFER_SIZE m1 goodbye with
    | .error e => .error e
    | .ok m2 =>
      .ok { s with
        mem := store s.mem buf (some m2)
        messages := messageQueueAddMessage s.messages buf (-1) }

/-- The function `dismissClient`; `buf` is the address of its local `message`. After the
announcement the socket is closed and `clientQueuePopClient` removes and frees the client;
when the function returns, its local `message` stops being live. -/
def dismissClient (s : Server) (buf : Ptr) (client : client_t) : Except Fault Server :=
  match dismissAnnounce s buf client with
  | .error e => .error e
  | .ok s1 =>
    match clientQueuePopClient s1.clients (some client) with
    | .error e => .error e
    | .ok (q, _) =>
      .ok { s1 with
        closed := s1.closed ++ [client.sockfd]
        clients := q
        mem := store s1.mem buf none }

/-- The addresses of the local `message` buffers of one handler thread: the one of
`handleNewClient`, of `welcomeClient` and of `dismissClient`. -/
structure Frame where
  message : Ptr
  welcome : Ptr
  dismiss : Ptr
deriving DecidableEq, Repr

/-- The start of `handleNewClient`: the first read (at most `BUFFER_SIZE` bytes into the
zeroed `temp`) is the name, then `clientInit`, `clientQueueAddClient`, `welcomeClient`. -/
def joinClient (s : Server) (fr : Frame) (fd : Int) (input : List Char) :
    Except Fault (Server × client_t) :=
  match clientInit fd (cstr (input.take BUFFER_SIZE)) with
  | .error e => .error e
  | .ok c0 =>
    match clientQueueAddClient s.clients c0 with
    | .error e => .error e
    | .ok (q, client) =>
      match welcomeClient { s with clients := q } fr.welcome client with
      | .error e => .error e
      | .ok s1 => .ok (s1, client)

/-- The call `strlen(buffer)` on the `BUFFER_SIZE`-byte read buffer: a read that fills the
buffer without a NUL leaves it unterminated. -/
def bufferString (data : List Char) : Except Fault (List Char) :=
  if data.length < BUFFER_SIZE ∨ NUL ∈ data then .ok (cstr data) else .error .overflow

/-- One round of the read loop of `handleNewClient` on what `read` delivered (nothing when
`read` returned 0 or less). The flag tells whether the loop goes on. -/
def activeStep (s : Server) (fr : Frame) (client : client_t) (input : List Char) :
    Except Fault (Server × Bool) :=
  let data := input.take BUFFER_SIZE
  if data.length = 0 then .ok (s, false)
  else if cstr data = quitToken then .ok (s, false)
  else
    match bufferString data with
    | .error e => .error e
    | .ok line =>
      match strncpy BUFFER_SIZE client.username with
      | .error e => .error e
      | .ok m1 =>
        match strncat BUFFER_SIZE m1 [':', ' '] with
        | .error e => .error e
        | .ok m2 =>
          match strncat BUFFER_SIZE m2 line with
          | .error e => .error e
          | .ok m3 =>
            .ok ({ s with
              mem := store s.mem fr.message (some m3)
              messages := messageQueueAddMessage s.messages fr.message client.id }, true)

/-- The read loop of `handleNewClient` over the reads that arrive. The flag tells whether
the loop was left (otherwise the thread waits in `read`). -/
def activeLoop (s : Server) (fr : Frame) (client : client_t) :
    List (List Char) → Except Fault (Server × Bool)
  | [] => .ok (s, false)
  | input :: rest =>
    match activeStep s fr client input with
    | .error e => .error e
    | .ok (s1, true) => activeLoop s1 fr client rest
    | .ok (s1, false) => .ok (s1, true)

/-- The rest of `handleNewClient` after the welcome: the read loop, then, once the loop is
left, `dismissClient` and `pthread_exit`, with which the local `message` of
`handleNewClient` stops being live. The flag tells whether the client was dismissed. -/
def serveClient (s : Server) (fr : Frame) (client : client_t) (reads : List (List Char)) :
    Except Fault (Server × Bool) :=
  match activeLoop s fr client reads with
  | .error e => .error e
  | .ok (s1, true) =>
    match dismissClient s1 fr.dismiss client with
    | .error e => .error e
    | .ok s2 => .ok ({ s2 with mem := store s2.mem fr.message none }, true)
  | .ok (s1, false) => .ok (s1, false)

/-- The function `handleNewClient` on the name read first and the reads that follow. -/
def handleNewClient (s : Server) (fr : Frame) (fd : Int) (name : List Char)
    (reads : List (List Char)) : Except Fault (Server × Bool) :=
  match joinClient s fr fd name with
  | .error e => .error e
  | .ok (s1, client) => serveClient s1 fr client reads

/-! ## Listener -/

/-- One round of the accept loop of `startServer` for an accepted socket: when the count is
`MAX_CLIENTS` the socket is closed and no handler is started. The flag tells whether a
handler thread is started. -/
def startServerAccept (s : Server) (client_socket : Int) : Server × Bool :=
  if s.clients.count = (MAX_CLIENTS : Int) then
    ({ s with closed := s.closed ++ [client_socket] }, false)
  else (s, true)

/-! ## Sequences of queue operations -/

/-- An operation on the message queue: a call of `messageQueueAddMessage`, or one
broadcaster pass. -/
inductive QueueOp where
  | enqueue (msg : Ptr) (id : Int)
  | drain
deriving DecidableEq, Repr

/-- Runs queue operations in order. A broadcaster that finds the count 0 keeps waiting; a
pass that reads a buffer that is not live ends the run. -/
def runOps : Server → List QueueOp → Except Fault Server
  | s, [] => .ok s
  | s, .enqueue msg id :: ops =>
    runOps { s with messages := messageQueueAddMessage s.messages msg id } ops
  | s, .drain :: ops =>
    match handleBroadcast s with
    | .ok s1 => runOps s1 ops
    | .error .blocked => runOps s ops
    | .error e => .error e

/-- The pointers enqueued by a sequence of operations, in order. -/
def enqueued : List QueueOp → List Ptr
  | [] => []
  | .enqueue msg _ :: ops => msg :: enqueued ops
  | .drain :: ops => enqueued ops

/-- No enqueue of the sequence meets a full queue, given that `n` messages wait at its
start. -/
def fitsQueue : Nat → List QueueOp → Bool
  | _, [] => true
  | n, .enqueue _ _ :: ops => decide (n < MAX_MESSAGES) && fitsQueue (n + 1) ops
  | _, .drain :: ops => fitsQueue 0 ops

/-! ## Definitions used in the statements -/

/-- The clients of a list with the ids `k, k+1, ...` in order. -/
def withIds : Nat → List client_t → List client_t
  | _, [] => []
  | k, c :: cs => { c with id := (k : Int) } :: withIds (k + 1) cs

/-- The writes one broadcaster pass makes for the pointers `ps`, in order, when their
buffers are live. -/
def passWrites (q : client_queue) (wfail : Int → Bool) (mem : Ptr → Option (List Char))
    (ps : List Ptr) : List WriteCall :=
  ps.flatMap (fun p => fanOutText q wfail ((mem p).getD []))

/-- The pointers of those enqueues of a sequence that find a free cell, given that `n`
messages wait at its start: a pass empties the queue, an enqueue on `MAX_MESSAGES` waiting
messages stores nothing. -/
def accepted : Nat → List QueueOp → List Ptr
  | _, [] => []
  | n, .enqueue msg _ :: ops =>
    if n < MAX_MESSAGES then msg :: accepted (n + 1) ops else accepted n ops
  | _, .drain :: ops => accepted 0 ops

/-- The queue holds exactly the pointers `ps`, in the first cells and in order. -/
def Filled (q : message_queue) (ps : List Ptr) : Prop :=
  q.messages = ps.map some ++ List.replicate (MAX_MESSAGES - ps.length) none ∧
    ps.length ≤ MAX_MESSAGES ∧ q.count = (ps.length : Int)

/-- The roster text for a list of names: the header, then every name followed by a newline. -/
def rosterText (names : List (List Char)) : List Char :=
  onlineHeader ++ names.flatMap (fun n => n ++ ['\n'])

instance instDecidableEqExcept {ε α : Type} [DecidableEq ε] [DecidableEq α] :
    DecidableEq (Except ε α)
  | .ok a, .ok b =>
    if h : a = b then isTrue (by rw [h]) else isFalse (fun h2 => by cases h2; exact h rfl)
  | .error a, .error b =>
    if h : a = b then isTrue (by rw [h]) else isFalse (fun h2 => by cases h2; exact h rfl)
  | .ok _, .error _ => isFalse (fun h => by cases h)
  | .error _, .ok _ => isFalse (fun h => by cases h)

/-- An environment in which no `write` fails. -/
def noFail : Int → Bool := fun _ => false

/-- Buffer addresses of the handler thread of the first connection. -/
def aliceFrame : Frame := { message := 1, welcome := 2, dismiss := 3 }

/-- Buffer addresses of the handler thread of the second connection. -/
def bobFrame : Frame := { message := 4, welcome := 5, dismiss := 6 }

/-- The first connection (socket 4) sends the name "alice" to a fresh server. -/
def aliceJoins : Except Fault (Server × client_t) :=
  joinClient (freshServer noFail) aliceFrame 4 "alice".toList

/-- Then the second connection (socket 5) sends the name "bob". -/
def bobJoins : Except Fault (Server × client_t × client_t) :=
  match aliceJoins with
  | .error e => .error e
  | .ok (s1, a) =>
    match joinClient s1 bobFrame 5 "bob".toList with
    | .error e => .error e
    | .ok (s2, b) => .ok (s2, a, b)

/-- A server in which alice (slot 0, socket 4) and bob (slot 1, socket 5) are registered and
no message waits. -/
def chatRoom : Server :=
  { freshServer noFail with
    clients :=
      { count := 2,
        data := [some { id := 0, sockfd := 4, username := "alice".toList },
                 some { id := 1, sockfd := 5, username := "bob".toList }]
                ++ List.replicate 10 none } }

/-- Alice and bob are registered and no message waits. Alice's handler reads "hi\n", reads
"yo\n", and the broadcaster makes one pass. The result is what that pass writes to bob's
socket. -/
def twoLinesThenPass : Except Fault (List (List Char)) :=
  match activeStep chatRoom aliceFrame
      { id := 0, sockfd := 4, username := "alice".toList } "hi\n".toList with
  | .error e => .error e
  | .ok (s4, _) =>
    match activeStep s4 aliceFrame
        { id := 0, sockfd := 4, username := "alice".toList } "yo\n".toList with
    | .error e => .error e
    | .ok (s5, _) =>
      match handleBroadcast s5 with
      | .error e => .error e
      | .ok s6 =>
        .ok (((s6.out.drop chatRoom.out.length).filter (fun w => w.fd = 5)).map
          (fun w => w.data))

/-- A queue on which `messageQueueAddMessage` was called `MAX_MESSAGES` times since it was
empty, with the pointers `0, ..., MAX_MESSAGES - 1`. -/
def fullQueue : message_queue :=
  { count := 100, messages := (List.range MAX_MESSAGES).map some,
    ids := List.replicate MAX_MESSAGES 0 }

/-- A registry with clients in the cells 0 and 2 and the other cells free. -/
def gapRegistry : client_queue :=
  { count := 2,
    data := [some { id := 0, sockfd := 4, username := "alice".toList }, none,
             some { id := 2, sockfd := 6, username := "carol".toList }]
            ++ List.replicate 9 none }

/-- A registry in which all `MAX_CLIENTS` cells are occupied. -/
def fullRegistry : client_queue :=
  { count := 12,
    data := (List.range MAX_CLIENTS).map
      (fun i => some { id := (i : Int), sockfd := (i : Int) + 4, username := ['u'] }) }

/-- A server whose registry is `fullRegistry`. -/
def fullServer : Server := { freshServer noFail with clients := fullRegistry }

/-- A server whose registry is `gapRegistry`. -/
def gapServer : Server := { freshServer noFail with clients := gapRegistry }

/-- A client as `clientInit` returns it for socket 9 and the name "dave". -/
def dave : client_t := { id := 0, sockfd := 9, username := "dave".toList }

/-- The client stored in cell 2 of `gapRegistry`. -/
def carol : client_t := { id := 2, sockfd := 6, username := "carol".toList }

/-- Three enqueues with a broadcaster pass in between. -/
def sampleOps : List QueueOp :=
  [QueueOp.enqueue 1 0, QueueOp.enqueue 2 1, QueueOp.drain, QueueOp.enqueue 3 0]

/-- Two clients as `clientInit` returns them. -/
def twoClients : List client_t :=
  [{ id := 0, sockfd := 4, username := "alice".toList },
   { id := 0, sockfd := 5, username := "bob".toList }]

/-- A server with the registry `gapRegistry`, in which writes to socket 4 fail and every
address `p` is a live buffer that holds `p + 1` times the character `x`. -/
def lossyServer : Server :=
  { freshServer (fun fd => decide (fd = 4)) with
    clients := gapRegistry
    mem := fun p => some (List.replicate (p + 1) 'x') }

/-- The enqueues of the pointers `0, 1, ..., MAX_MESSAGES`, one more than the queue has
cells, with no broadcaster pass in between. -/
def overflowOps : List QueueOp :=
  (List.range (MAX_MESSAGES + 1)).map (fun p => QueueOp.enqueue p 0)

/-- Memory for the registry as `malloc` may return it: the first cell is not `NULL`. -/
def dirtyCells : List (Option client_t) :=
  some { id := 0, sockfd := 0, username := [] } :: List.replicate 11 none

/-- The registry invariant: the array has its `MAX_CLIENTS` cells, `count` is the number of
occupied cells, and `0 <= count <= MAX_CLIENTS`. -/
def registryInv (q : client_queue) : Prop :=
  q.data.length = MAX_CLIENTS ∧ q.count = (occupied q : Int) ∧
    0 ≤ q.count ∧ q.count ≤ (MAX_CLIENTS : Int)

instance (q : client_queue) : Decidable (registryInv q) := by
  unfold registryInv; infer_instance

/-- A client joins the empty registry and is then released twice with
`clientQueuePopClient`, through the same pointer. -/
def doublePop : Except Fault (client_queue × Option client_t) :=
  match clientQueueAddClient emptyRegistry { id := 0, sockfd := 4, username := "alice".toList } with
  | .error e => .error e
  | .ok (q1, c) =>
    match clientQueuePopClient q1 (some c) with
    | .error e => .error e
    | .ok (q2, c2) => clientQueuePopClient q2 c2

/-! ## Scans and arrays -/

theorem cells_eq_self {α : Type} (a : List (Option α)) (n : Nat) (h : a.length = n) :
    cells a n = a := by
  apply List.ext_getElem
  · simp [cells, h]
  · intro i h1 h2
    simp [cells, List.getElem?_eq_getElem h2]

theorem firstNull_some {α : Type} (slots : List (Option α)) :
    ∀ (fuel i k : Nat), firstNull slots fuel i = some k →
      i ≤ k ∧ k < i + fuel ∧ slots[k]? = some none ∧
        ∀ j, i ≤ j → j < k → slots[j]? ≠ some none := by
  intro fuel
  induction fuel with
  | zero => intro i k h; simp [firstNull] at h
  | succ n ih =>
    intro i k h
    unfold firstNull at h
    split at h
    · rename_i hs
      cases h
      exact ⟨le_refl _, by omega, hs, fun j h1 h2 => by omega⟩
    · rename_i hs
      obtain ⟨h1, h2, h3, h4⟩ := ih (i + 1) k h
      refine ⟨by omega, by omega, h3, ?_⟩
      intro j hj1 hj2
      by_cases hji : j = i
      · subst hji; exact fun hc => hs hc
      · exact h4 j (by omega) hj2

theorem firstNull_none {α : Type} (slots : List (Option α)) :
    ∀ (fuel i : Nat), firstNull slots fuel i = none →
      ∀ j, i ≤ j → j < i + fuel → slots[j]? ≠ some none := by
  intro fuel
  induction fuel with
  | zero => intro i _ j h1 h2; omega
  | succ n ih =>
    intro i h j h1 h2
    unfold firstNull at h
    split at h
    · cases h
    · rename_i hs
      by_cases hji : j = i
      · subst hji; exact fun hc => hs hc
      · exact ih (i + 1) h j (by omega) (by omega)

theorem firstNull_lowest {α : Type} (slots : List (Option α)) :
    ∀ (fuel i k : Nat), i ≤ k → k < i + fuel → slots[k]? = some none →
      (∀ j, i ≤ j → j < k → slots[j]? ≠ some none) → firstNull slots fuel i = some k := by
  intro fuel
  induction fuel with
  | zero => intro i k h1 h2; omega
  | succ n ih =>
    intro i k h1 h2 h3 h4
    unfold firstNull
    by_cases hik : i = k
    · subst hik; simp [h3]
    · have hne : slots[i]? ≠ some none := h4 i (le_refl _) (by omega)
      have := ih (i + 1) k (by omega) (by omega) h3 (fun j hj1 hj2 => h4 j (by omega) hj2)
      split
      · rename_i hs; exact absurd hs hne
      · exact this

theorem firstNull_filled {α : Type} (xs : List α) (m fuel : Nat) (hm : 0 < m)
    (hf : xs.length < fuel) :
    firstNull (xs.map some ++ List.replicate m none) fuel 0 = some xs.length := by
  apply firstNull_lowest
  · omega
  · omega
  · rw [List.getElem?_append_right (by simp)]
    simp [List.getElem?_replicate, hm]
  · intro j _ hj
    rw [List.getElem?_append_left (by simpa using hj)]
    simp [List.getElem?_map]

theorem filterMap_filled {α β : Type} (f : α → β) (L : List α) (m : Nat) :
    (L.map some ++ List.replicate m none).filterMap (fun (cell : Option α) => cell.map f)
      = L.map f := by
  induction L with
  | nil =>
    induction m with
    | zero => rfl
    | succ n ih => simp [List.replicate_succ]
  | cons a L ih => simp

/-! ## C1: the registry after N joins -/

theorem withIds_length : ∀ (cs : List client_t) (k : Nat), (withIds k cs).length = cs.length
  | [], _ => rfl
  | _ :: cs, k => by simp [withIds, withIds_length cs (k + 1)]

theorem withIds_username : ∀ (cs : List client_t) (k : Nat),
    (withIds k cs).map (fun c => c.username) = cs.map (fun c => c.username)
  | [], _ => rfl
  | _ :: cs, k => by simp [withIds, withIds_username cs (k + 1)]

theorem withIds_sockfd : ∀ (cs : List client_t) (k : Nat),
    (withIds k cs).map (fun c => c.sockfd) = cs.map (fun c => c.sockfd)
  | [], _ => rfl
  | _ :: cs, k => by simp [withIds, withIds_sockfd cs (k + 1)]

theorem withIds_id : ∀ (cs : List client_t) (k : Nat),
    (withIds k cs).map (fun c => c.id) = List.map Int.ofNat (List.range' k cs.length)
  | [], _ => rfl
  | _ :: cs, k => by simp [withIds, List.range'_succ, withIds_id cs (k + 1)]

theorem withIds_getElem? : ∀ (cs : List client_t) (k i : Nat),
    (withIds k cs)[i]? = (cs[i]?).map (fun c => { c with id := ((k + i : Nat) : Int) })
  | [], _, _ => by simp [withIds]
  | _ :: _, _, 0 => by simp [withIds]
  | _ :: cs, k, i + 1 => by
    simp only [withIds, List.getElem?_cons_succ, withIds_getElem? cs (k + 1) i]
    have : k + 1 + i = k + (i + 1) := by omega
    rw [this]

theorem add_filled (L : List client_t) (m : Nat) (c : client_t) (hm : 0 < m)
    (hlen : L.length + m = MAX_CLIENTS) :
    clientQueueAddClient { count := (L.length : Int), data := L.map some ++ List.replicate m none } c
      = .ok ({ count := ((L.length + 1 : Nat) : Int),
               data := (L ++ [{ c with id := (L.length : Int) }]).map some
                        ++ List.replicate (m - 1) none },
             { c with id := (L.length : Int) }) := by
  have hlt : L.length < MAX_CLIENTS := by omega
  have hne : ((L.length : Nat) : Int) ≠ (MAX_CLIENTS : Int) := by
    intro h; have := Int.ofNat_inj.mp h; omega
  unfold clientQueueAddClient
  rw [if_neg hne]
  simp only [firstNull_filled L m MAX_CLIENTS hm hlt]
  obtain ⟨m', rfl⟩ : ∃ m', m = m' + 1 := ⟨m - 1, by omega⟩
  simp [List.set_append, List.replicate_succ]

theorem addClients_filled : ∀ (cs L : List client_t), L.length + cs.length ≤ MAX_CLIENTS →
    addClients { count := (L.length : Int),
                 data := L.map some ++ List.replicate (MAX_CLIENTS - L.length) none } cs
      = .ok ({ count := ((L.length + cs.length : Nat) : Int),
               data := (L ++ withIds L.length cs).map some
                        ++ List.replicate (MAX_CLIENTS - (L.length + cs.length)) none },
             withIds L.length cs)
  | [], L, _ => by simp [addClients, withIds]
  | c :: cs, L, h => by
    have h1 : L.length + (cs.length + 1) ≤ MAX_CLIENTS := by simpa using h
    have hstep := add_filled L (MAX_CLIENTS - L.length) c (by omega) (by omega)
    have ih := addClients_filled cs (L ++ [{ c with id := (L.length : Int) }])
      (by simp; omega)
    have e1 : MAX_CLIENTS - L.length - 1 = MAX_CLIENTS - (L.length + 1) := by omega
    have e2 : MAX_CLIENTS - (L.length + 1 + cs.length) = MAX_CLIENTS - (L.length + (cs.length + 1)) := by
      omega
    have e3 : L.length + 1 + cs.length = L.length + (cs.length + 1) := by omega
    simp only [List.length_append, List.length_singleton, List.length_cons, List.length_nil,
      Nat.zero_add] at ih ⊢
    rw [addClients, hstep]
    simp only [e1]
    rw [ih]
    simp [withIds, e2, e3]

theorem clientQueueNames_filled (L : List client_t) (m : Nat) (count : Int)
    (h : L.length + m = MAX_CLIENTS) :
    clientQueueNames { count := count, data := L.map some ++ List.replicate m none }
      = L.map (fun c => c.username) := by
  unfold clientQueueNames
  rw [cells_eq_self _ _ (by simpa using h)]
  exact filterMap_filled _ L m

theorem occupied_filled (L : List client_t) (m : Nat) (count : Int)
    (h : L.length + m = MAX_CLIENTS) :
    occupied { count := count, data := L.map some ++ List.replicate m none } = L.length := by
  unfold occupied
  rw [cells_eq_self _ _ (by simpa using h)]
  simp [List.filter_append, List.filter_map, Function.comp_def, List.filter_replicate]

/-- C1: starting from the empty registry, any `N ≤ MAX_CLIENTS` registrations all succeed;
afterwards the count is `N`, exactly `N` cells are occupied and they hold the `N` clients in
order (each in the cell named by its id), a scan yields exactly their `N` names, and their
ids are pairwise distinct. -/
theorem registry_after_joins (cs : List client_t) (hN : cs.length ≤ MAX_CLIENTS) :
    ∃ q regs, addClients emptyRegistry cs = .ok (q, regs) ∧
      q.count = (cs.length : Int) ∧ occupied q = cs.length ∧
      q.data = regs.map some ++ List.replicate (MAX_CLIENTS - cs.length) none ∧
      (∀ c ∈ regs, stored q c) ∧
      regs.map (fun c => c.username) = cs.map (fun c => c.username) ∧
      regs.map (fun c => c.sockfd) = cs.map (fun c => c.sockfd) ∧
      clientQueueNames q = cs.map (fun c => c.username) ∧
      (regs.map (fun c => c.id)).Nodup := by
  have h := addClients_filled cs [] (by simpa using hN)
  simp only [List.length_nil, List.map_nil, List.nil_append, Nat.sub_zero, Nat.zero_add,
    Nat.cast_zero] at h
  refine ⟨_, _, h, ?_, ?_, ?_, ?_, ?_, ?_, ?_, ?_⟩
  · rfl
  · rw [occupied_filled _ _ _ (by simp [withIds_length]; omega), withIds_length]
  · rfl
  · intro c hc
    obtain ⟨i, hi, hget⟩ := List.getElem_of_mem hc
    have hget2 : (withIds 0 cs)[i]? = some c := by
      rw [List.getElem?_eq_getElem hi, hget]
    have hid : c.id = (i : Int) := by
      rw [withIds_getElem?] at hget2
      cases hci : cs[i]? with
      | none => simp [hci] at hget2
      | some c0 => simp [hci] at hget2; rw [← hget2]
    refine ⟨by rw [hid]; exact Int.natCast_nonneg i, ?_⟩
    rw [hid]
    simp only [Int.toNat_ofNat]
    rw [List.getElem?_append_left (by simpa using hi)]
    simp [List.getElem?_map, hget2]
  · exact withIds_username cs 0
  · exact withIds_sockfd cs 0
  · rw [clientQueueNames_filled _ _ _ (by simp [withIds_length]; omega)]
    exact withIds_username cs 0
  · rw [withIds_id]
    exact List.Nodup.map (fun a b h => Int.ofNat.inj h) (List.nodup_range' 0 cs.length)

/-- Witness for C1: two clients join the empty registry. -/
theorem registry_after_joins_witness :
    ∃ q regs, addClients emptyRegistry twoClients = .ok (q, regs) ∧
      q.count = (twoClients.length : Int) ∧ occupied q = twoClients.length ∧
      q.data = regs.map some ++ List.replicate (MAX_CLIENTS - twoClients.length) none ∧
      (∀ c ∈ regs, stored q c) ∧
      regs.map (fun c => c.username) = twoClients.map (fun c => c.username) ∧
      regs.map (fun c => c.sockfd) = twoClients.map (fun c => c.sockfd) ∧
      clientQueueNames q = twoClients.map (fun c => c.username) ∧
      (regs.map (fun c => c.id)).Nodup :=
  registry_after_joins twoClients (by decide)

/-! ## C2: a full registry -/

/-- C2: when the registry holds `MAX_CLIENTS` clients, the accept loop rejects a further
connection: the socket is closed, no handler is started, so the newcomer is never stored and
gets no slot, and the registry (every cell and the count) is unchanged; nothing else in the
server state changes either. A registration call on such a registry does not store
anything: it waits. -/
theorem full_registry_rejects (s : Server) (fd : Int) (c : client_t) (hwf : s.clients.wf)
    (hfull : occupied s.clients = MAX_CLIENTS) :
    startServerAccept s fd = ({ s with closed := s.closed ++ [fd] }, false) ∧
      (startServerAccept s fd).1.clients = s.clients ∧
      clientQueueAddClient s.clients c = .error .blocked := by
  have hc : s.clients.count = (MAX_CLIENTS : Int) := by rw [hwf.2, hfull]
  refine ⟨?_, ?_, ?_⟩
  · unfold startServerAccept; rw [if_pos hc]
  · unfold startServerAccept; rw [if_pos hc]
  · unfold clientQueueAddClient; rw [if_pos hc]

/-- Witness for C2: a registry with all twelve cells occupied. -/
theorem full_registry_rejects_witness :
    startServerAccept fullServer 20 = ({ fullServer with closed := fullServer.closed ++ [20] }, false) ∧
      (startServerAccept fullServer 20).1.clients = fullServer.clients ∧
      clientQueueAddClient fullServer.clients dave = .error .blocked :=
  full_registry_rejects fullServer 20 dave (by decide) (by decide)

/-! ## C3: order of broadcast -/

theorem fanOut_fold (wfail : Int → Bool) (text : List Char) :
    ∀ (cs : List (Option client_t)) (acc : List WriteCall),
      cs.foldlM (fanOutStep wfail (some text)) acc
      = .ok (acc ++ cs.filterMap (fun (cell : Option client_t) => cell.map
          (fun user => ({ fd := user.sockfd, data := text, failed := wfail user.sockfd } :
            WriteCall))))
  | [], acc => by simp [pure, Except.pure]
  | none :: cs, acc => by
    simp only [List.foldlM_cons, fanOutStep, bind, Except.bind]
    rw [fanOut_fold wfail text cs]
    simp
  | some user :: cs, acc => by
    simp only [List.foldlM_cons, fanOutStep, bind, Except.bind]
    rw [fanOut_fold wfail text cs]
    simp

theorem fanOut_some (q : client_queue) (wfail : Int → Bool) (text : List Char) :
    fanOut q wfail (some text) = .ok (fanOutText q wfail text) := by
  unfold fanOut fanOutText
  rw [fanOut_fold]
  simp

theorem fanOut_live (q : client_queue) (wfail : Int → Bool) (mem : Ptr → Option (List Char))
    (p : Ptr) (h : (mem p).isSome = true) :
    fanOut q wfail (mem p) = .ok (fanOutText q wfail ((mem p).getD [])) := by
  cases hm : mem p with
  | none => rw [hm] at h; cases h
  | some text => exact fanOut_some q wfail text

theorem pass_upto (s : Server) :
    ∀ k, k ≤ s.messages.messages.length →
      (∀ p ∈ (s.messages.messages.take k).filterMap id, (s.mem p).isSome = true) →
      (List.range k).foldlM broadcastSlot s =
        .ok { s with
          out := s.out ++ passWrites s.clients s.wfail s.mem ((s.messages.messages.take k).filterMap id)
          messages :=
            { count := s.messages.count - (((s.messages.messages.take k).filterMap id).length : Int)
              messages := List.replicate k none ++ s.messages.messages.drop k
              ids := s.messages.ids } } := by
  intro k
  induction k with
  | zero => intro _ _; simp [passWrites, pure, Except.pure]
  | succ k ih =>
    intro hk hlive
    have hk1 : k < s.messages.messages.length := by omega
    have htake : s.messages.messages.take (k + 1)
        = s.messages.messages.take k ++ [s.messages.messages[k]] := by
      rw [List.take_succ, List.getElem?_eq_getElem hk1]; rfl
    have hlive0 : ∀ p ∈ (s.messages.messages.take k).filterMap id, (s.mem p).isSome = true := by
      intro p hp
      apply hlive p
      rw [htake, List.filterMap_append]
      exact List.mem_append_left _ hp
    rw [List.range_succ, List.foldlM_append, ih (by omega) hlive0]
    simp only [bind, Except.bind, List.foldlM_cons, List.foldlM_nil, pure, Except.pure]
    have hget : (List.replicate k (none : Option Ptr) ++ s.messages.messages.drop k)[k]?
        = some (s.messages.messages[k]) := by
      rw [List.getElem?_append_right (by simp)]
      simp [List.getElem?_drop, List.getElem?_eq_getElem hk1]
    have hdrop : s.messages.messages.drop k
        = s.messages.messages[k] :: s.messages.messages.drop (k + 1) :=
      List.drop_eq_getElem_cons hk1
    unfold broadcastSlot
    simp only [hget]
    cases hcell : s.messages.messages[k] with
    | none =>
      simp only [htake, hcell, List.filterMap_append, List.filterMap_cons, List.filterMap_nil, id,
        List.append_nil]
      rw [hdrop, hcell, List.replicate_succ']
      simp
    | some p =>
      have hp : (s.mem p).isSome = true := by
        apply hlive p
        rw [htake, hcell, List.filterMap_append]
        exact List.mem_append_right _ (by simp)
      simp only [htake, hcell, List.filterMap_append, List.filterMap_cons, List.filterMap_nil, id,
        fanOut_live s.clients s.wfail s.mem p hp]
      rw [hdrop, hcell, List.replicate_succ']
      simp [passWrites, List.flatMap_append]
      omega

theorem pending_eq (q : message_queue) (h : q.messages.length = MAX_MESSAGES) :
    pending q = q.messages.filterMap id := by
  unfold pending
  rw [cells_eq_self _ _ h]

theorem handleBroadcast_eq (s : Server) (h : s.messages.messages.length = MAX_MESSAGES)
    (hlive : ∀ p ∈ pending s.messages, (s.mem p).isSome = true) :
    handleBroadcast s =
      if s.messages.count = 0 then .error .blocked
      else .ok { s with
        out := s.out ++ passWrites s.clients s.wfail s.mem (pending s.messages)
        messages :=
          { count := s.messages.count - ((pending s.messages).length : Int)
            messages := List.replicate MAX_MESSAGES none
            ids := s.messages.ids } } := by
  have h1 : s.messages.messages.take MAX_MESSAGES = s.messages.messages := by
    rw [← h]; exact List.take_length _
  have h2 : s.messages.messages.drop MAX_MESSAGES = [] := by
    rw [← h]; exact List.drop_length _
  unfold handleBroadcast
  split
  · rfl
  · rw [pass_upto s MAX_MESSAGES (by omega) (by rw [h1, ← pending_eq _ h]; exact hlive),
      pending_eq _ h, h1, h2, List.append_nil]

theorem Filled.length {q : message_queue} {ps : List Ptr} (h : Filled q ps) :
    q.messages.length = MAX_MESSAGES := by
  rw [h.1]; simp; have := h.2.1; omega

theorem Filled.pending {q : message_queue} {ps : List Ptr} (h : Filled q ps) :
    pending q = ps := by
  rw [pending_eq _ h.length, h.1]
  simp

theorem filled_init : Filled emptyQueue [] := by
  refine ⟨?_, by simp, rfl⟩
  simp [emptyQueue, messageQueueInit]

theorem Filled.add {q : message_queue} {ps : List Ptr} (h : Filled q ps) (msg : Ptr) (id : Int)
    (hlt : ps.length < MAX_MESSAGES) : Filled (messageQueueAddMessage q msg id) (ps ++ [msg]) := by
  obtain ⟨h1, h2, h3⟩ := h
  unfold messageQueueAddMessage
  rw [h1, firstNull_filled ps _ MAX_MESSAGES (by omega) hlt]
  refine ⟨?_, by simp; omega, by simp [h3]⟩
  obtain ⟨m, hm⟩ : ∃ m, MAX_MESSAGES - ps.length = m + 1 := ⟨MAX_MESSAGES - ps.length - 1, by omega⟩
  have hm2 : MAX_MESSAGES - (ps ++ [msg]).length = m := by simp; omega
  rw [hm2, hm]
  simp [List.set_append, List.replicate_succ]

theorem Filled.add_full {q : message_queue} {ps : List Ptr} (h : Filled q ps) (msg : Ptr)
    (id : Int) (hfull : ¬ ps.length < MAX_MESSAGES) : messageQueueAddMessage q msg id = q := by
  obtain ⟨h1, h2, _⟩ := h
  have hlen : ps.length = MAX_MESSAGES := by omega
  unfold messageQueueAddMessage
  cases hf : firstNull q.messages MAX_MESSAGES 0 with
  | none => rfl
  | some i =>
    exfalso
    obtain ⟨_, hi, hnull, _⟩ := firstNull_some _ _ _ _ hf
    rw [h1, List.getElem?_append_left (by simp; omega)] at hnull
    simp [List.getElem?_map] at hnull

theorem passWrites_append (q : client_queue) (wfail : Int → Bool)
    (mem : Ptr → Option (List Char)) (xs ys : List Ptr) :
    passWrites q wfail mem (xs ++ ys) = passWrites q wfail mem xs ++ passWrites q wfail mem ys := by
  simp [passWrites, List.flatMap_append]

theorem Filled.drain {s : Server} {ps : List Ptr} (h : Filled s.messages ps) (hne : ps ≠ [])
    (hlive : ∀ p ∈ ps, (s.mem p).isSome = true) :
    ∃ s1, handleBroadcast s = .ok s1 ∧ Filled s1.messages [] ∧
      s1.out = s.out ++ passWrites s.clients s.wfail s.mem ps ∧
      s1.clients = s.clients ∧ s1.wfail = s.wfail ∧ s1.mem = s.mem ∧ s1.closed = s.closed := by
  have hc : s.messages.count ≠ 0 := by
    rw [h.2.2]
    intro h0
    exact hne (List.length_eq_zero.mp (Int.ofNat_eq_zero.mp h0))
  rw [handleBroadcast_eq s h.length (by rw [h.pending]; exact hlive), if_neg hc, h.pending]
  refine ⟨_, rfl, ⟨?_, by simp, ?_⟩, rfl, rfl, rfl, rfl, rfl⟩
  · simp
  · simp [h.2.2]

theorem Filled.blocked {s : Server} (h : Filled s.messages []) :
    handleBroadcast s = .error .blocked := by
  unfold handleBroadcast
  rw [if_pos (by simpa using h.2.2)]

theorem accepted_sublist : ∀ (ops : List QueueOp) (n : Nat),
    (accepted n ops).Sublist (enqueued ops)
  | [], _ => by simp [accepted, enqueued]
  | .enqueue msg id :: ops, n => by
    simp only [accepted, enqueued]
    split
    · exact (accepted_sublist ops (n + 1)).cons₂ msg
    · exact (accepted_sublist ops n).cons msg
  | .drain :: ops, n => by
    simp only [accepted, enqueued]
    exact accepted_sublist ops 0

theorem accepted_of_fits : ∀ (ops : List QueueOp) (n : Nat), fitsQueue n ops = true →
    accepted n ops = enqueued ops
  | [], _, _ => by simp [accepted, enqueued]
  | .enqueue msg id :: ops, n, h => by
    simp only [fitsQueue, Bool.and_eq_true, decide_eq_true_eq] at h
    simp only [accepted, enqueued, if_pos h.1, accepted_of_fits ops (n + 1) h.2]
  | .drain :: ops, n, h => by
    simp only [fitsQueue] at h
    simp only [accepted, enqueued, accepted_of_fits ops 0 h]

theorem runOps_inv : ∀ (ops : List QueueOp) (s : Server) (ps : List Ptr), Filled s.messages ps →
    (∀ p ∈ ps ++ enqueued ops, (s.mem p).isSome = true) →
    ∃ s1 done ps1, runOps s ops = .ok s1 ∧ Filled s1.messages ps1 ∧
      s1.out = s.out ++ passWrites s.clients s.wfail s.mem done ∧
      s1.clients = s.clients ∧ s1.wfail = s.wfail ∧ s1.mem = s.mem ∧
      done ++ ps1 = ps ++ accepted ps.length ops
  | [], s, ps, h, _ => ⟨s, [], ps, rfl, h, by simp [passWrites], rfl, rfl, rfl,
      by simp [accepted]⟩
  | .enqueue msg id :: ops, s, ps, h, hlive => by
    have hlive2 : ∀ p ∈ ps ++ enqueued ops, (s.mem p).isSome = true := by
      intro p hp
      apply hlive p
      simp only [enqueued, List.mem_append, List.mem_cons] at hp ⊢
      tauto
    by_cases hlt : ps.length < MAX_MESSAGES
    · obtain ⟨s1, done, ps1, h0, h1, h2, h3, h4, h5, h6⟩ :=
        runOps_inv ops { s with messages := messageQueueAddMessage s.messages msg id }
          (ps ++ [msg]) (h.add msg id hlt) (by
            intro p hp
            apply hlive p
            simp only [enqueued, List.mem_append, List.mem_cons, List.mem_singleton,
              List.not_mem_nil, or_false] at hp ⊢
            tauto)
      refine ⟨s1, done, ps1, by simpa [runOps] using h0, h1, h2, h3, h4, h5, ?_⟩
      simp only [accepted, if_pos hlt]
      simpa using h6
    · have hs : ({ s with messages := messageQueueAddMessage s.messages msg id } : Server) = s := by
        rw [h.add_full msg id hlt]
      obtain ⟨s1, done, ps1, h0, h1, h2, h3, h4, h5, h6⟩ := runOps_inv ops s ps h hlive2
      refine ⟨s1, done, ps1, by simpa [runOps, hs] using h0, h1, h2, h3, h4, h5, ?_⟩
      simp only [accepted, if_neg hlt]
      exact h6
  | .drain :: ops, s, ps, h, hlive => by
    have hlive2 : ∀ p ∈ enqueued ops, (s.mem p).isSome = true := by
      intro p hp
      apply hlive p
      simp only [enqueued, List.mem_append]
      exact Or.inr hp
    by_cases hne : ps = []
    · subst hne
      obtain ⟨s1, done, ps1, h0, h1, h2, h3, h4, h5, h6⟩ :=
        runOps_inv ops s [] h (by simpa using hlive2)
      have hb := h.blocked
      refine ⟨s1, done, ps1, by simpa [runOps, hb] using h0, h1, h2, h3, h4, h5, ?_⟩
      simpa [accepted] using h6
    · obtain ⟨s0, hd, hf, ho, hc, hw, hm, _⟩ :=
        h.drain hne (fun p hp => hlive p (List.mem_append_left _ hp))
      obtain ⟨s1, done, ps1, h0, h1, h2, h3, h4, h5, h6⟩ :=
        runOps_inv ops s0 [] hf (by rw [hm]; simpa using hlive2)
      refine ⟨s1, ps ++ done, ps1, by simpa [runOps, hd] using h0, h1, ?_, ?_, ?_, ?_, ?_⟩
      · rw [h2, ho, hc, hw, hm, passWrites_append, List.append_assoc]
      · rw [h3, hc]
      · rw [h4, hw]
      · rw [h5, hm]
      · simp only [accepted, List.append_assoc]
        rw [h6]; simp

theorem runOps_append : ∀ (ops more : List QueueOp) (s s1 : Server),
    runOps s ops = .ok s1 → runOps s (ops ++ more) = runOps s1 more
  | [], _, s, s1, h => by
    simp only [runOps, Except.ok.injEq] at h
    rw [← h]; rfl
  | .enqueue msg id :: ops, more, s, s1, h => by
    simp only [List.cons_append, runOps] at h ⊢
    exact runOps_append ops more _ s1 h
  | .drain :: ops, more, s, s1, h => by
    simp only [List.cons_append, runOps] at h ⊢
    cases hb : handleBroadcast s with
    | ok s0 =>
      rw [hb] at h
      exact runOps_append ops more s0 s1 h
    | error e =>
      rw [hb] at h
      cases e with
      | blocked => exact runOps_append ops more s s1 h
      | overflow => cases h
      | dangling => cases h

/-- Where the order of C3 does hold: over any sequence of enqueue operations and broadcaster
passes that starts from the empty queue, with all queued buffers live, the run returns and
the broadcaster writes in enqueue order. At every moment the write log has grown by the
fan-out of a list `done` of pointers such that `done` followed by the pointers still
waiting is the list of the enqueues that found a free cell, in enqueue order; after one
more pass the log has grown by the fan-out of exactly that list. It is an order-preserving
part of the enqueue sequence `m1, ..., mk`, and it is all of `m1, ..., mk` when no enqueue
met a full queue. -/
theorem broadcast_fifo (s : Server) (ops : List QueueOp) (hq : s.messages = emptyQueue)
    (hlive : ∀ p ∈ enqueued ops, (s.mem p).isSome = true) :
    (∃ s1 done, runOps s ops = .ok s1 ∧
      s1.out = s.out ++ passWrites s.clients s.wfail s.mem done ∧
      done ++ pending s1.messages = accepted 0 ops) ∧
    (∃ s2, runOps s (ops ++ [QueueOp.drain]) = .ok s2 ∧
      s2.out = s.out ++ passWrites s.clients s.wfail s.mem (accepted 0 ops)) ∧
    (accepted 0 ops).Sublist (enqueued ops) ∧
    (fitsQueue 0 ops = true → accepted 0 ops = enqueued ops) := by
  have hf : Filled s.messages [] := by rw [hq]; exact filled_init
  obtain ⟨s1, done, ps1, h0, h1, h2, h3, h4, h5, h6⟩ :=
    runOps_inv ops s [] hf (by simpa using hlive)
  have heq : done ++ ps1 = accepted 0 ops := by simpa using h6
  have hps1 : ∀ p ∈ ps1, (s1.mem p).isSome = true := by
    intro p hp
    rw [h5]
    apply hlive p
    apply (accepted_sublist ops 0).subset
    rw [← heq]
    exact List.mem_append_right _ hp
  refine ⟨⟨s1, done, h0, h2, by rw [h1.pending]; exact heq⟩, ?_, accepted_sublist ops 0,
    accepted_of_fits ops 0⟩
  rw [runOps_append ops [QueueOp.drain] s s1 h0]
  simp only [runOps]
  by_cases hne : ps1 = []
  · subst hne
    rw [h1.blocked]
    refine ⟨s1, rfl, ?_⟩
    rw [h2, ← heq, List.append_nil]
  · obtain ⟨s2, hd, _, ho, _⟩ := h1.drain hne hps1
    rw [hd]
    refine ⟨s2, rfl, ?_⟩
    rw [ho, h2, h3, h4, h5, ← heq, passWrites_append, List.append_assoc]

theorem accepted_overflowOps : accepted 0 overflowOps = List.range MAX_MESSAGES := by
  decide

theorem enqueued_map_enqueue : ∀ (l : List Ptr),
    enqueued (l.map (fun p => QueueOp.enqueue p 0)) = l
  | [] => rfl
  | p :: l => by simp [enqueued, enqueued_map_enqueue l]

theorem fanOutText_gapRegistry (wfail : Int → Bool) (text : List Char) :
    fanOutText gapRegistry wfail text
      = [{ fd := 4, data := text, failed := wfail 4 }, { fd := 6, data := text, failed := wfail 6 }] :=
  rfl

theorem passWrites_gapRegistry (wfail : Int → Bool) (mem : Ptr → Option (List Char)) :
    ∀ (ps : List Ptr),
      ((passWrites gapRegistry wfail mem ps).filter (fun w => w.fd = 6)).map (fun w => w.data)
        = ps.map (fun p => (mem p).getD [])
  | [] => rfl
  | p :: ps => by
    have ih := passWrites_gapRegistry wfail mem ps
    unfold passWrites at ih ⊢
    simp only [fanOutText_gapRegistry] at ih
    simp only [List.flatMap_cons, fanOutText_gapRegistry, List.filter_append, List.map_append,
      ih, List.map_cons]
    simp [List.filter_cons]

/-- C3 fails on the code: the pointers `0, 1, ..., 100` are enqueued in this order on the
empty queue, each pointing to a live buffer with a text of its own, and the broadcaster then
makes a pass. The run returns; the texts written to the registered client on socket 6 are
those of the pointers `0, ..., 99`, in enqueue order, and the text of the pointer 100, which
was enqueued on a full queue, is never written. -/
theorem overflow_message_never_written :
    enqueued overflowOps = List.range (MAX_MESSAGES + 1) ∧
      (∃ s2, runOps lossyServer (overflowOps ++ [QueueOp.drain]) = .ok s2 ∧
        (s2.out.filter (fun w => w.fd = 6)).map (fun w => w.data)
          = (List.range MAX_MESSAGES).map (fun p => List.replicate (p + 1) 'x')) ∧
      List.replicate (MAX_MESSAGES + 1) 'x' ∉
        (List.range MAX_MESSAGES).map (fun p => List.replicate (p + 1) 'x') := by
  refine ⟨enqueued_map_enqueue _, ?_, ?_⟩
  · obtain ⟨s2, hrun, hout⟩ := (broadcast_fifo lossyServer overflowOps rfl (fun _ _ => rfl)).2.1
    refine ⟨s2, hrun, ?_⟩
    have h := passWrites_gapRegistry lossyServer.wfail lossyServer.mem (List.range MAX_MESSAGES)
    have hout0 : lossyServer.out = [] := rfl
    have hcl : lossyServer.clients = gapRegistry := rfl
    rw [hout, accepted_overflowOps, hout0, hcl, List.nil_append, h]
    rfl
  · intro hmem
    obtain ⟨p, hp, heq⟩ := List.mem_map.mp hmem
    have hlen := congrArg List.length heq
    simp only [List.length_replicate] at hlen
    have := List.mem_range.mp hp
    omega

/-! ## C4: delivery of a chat line -/

theorem cstr_eq_self (line : List Char) (h : NUL ∉ line) : cstr line = line := by
  unfold cstr
  rw [List.takeWhile_eq_self_iff]
  intro ch hch
  simp only [bne_iff_ne, ne_eq]
  intro heq
  exact h (heq ▸ hch)

theorem activeStep_chat (s : Server) (fr : Frame) (client : client_t) (data : List Char)
    (hne : data.take BUFFER_SIZE ≠ [])
    (hquit : cstr (data.take BUFFER_SIZE) ≠ quitToken)
    (hterm : (data.take BUFFER_SIZE).length < BUFFER_SIZE ∨ NUL ∈ data.take BUFFER_SIZE)
    (hfit : client.username.length + (cstr (data.take BUFFER_SIZE)).length + 3 ≤ BUFFER_SIZE) :
    activeStep s fr client data
      = .ok ({ s with
          mem := store s.mem fr.message
            (some (client.username ++ [':', ' '] ++ cstr (data.take BUFFER_SIZE)))
          messages := messageQueueAddMessage s.messages fr.message client.id }, true) := by
  have hlen0 : ¬ (data.take BUFFER_SIZE).length = 0 := fun h => hne (List.length_eq_zero.mp h)
  have h1 : client.username.length ≤ BUFFER_SIZE := by omega
  have h2 : client.username.length + 2 + 1 ≤ BUFFER_SIZE := by omega
  have h3 : client.username.length + 2 + (cstr (data.take BUFFER_SIZE)).length + 1
      ≤ BUFFER_SIZE := by omega
  unfold activeStep
  simp only [hlen0, hquit, if_false, bufferString, if_pos hterm, strncpy, if_pos h1,
    strncat, List.length_cons, List.length_nil, Nat.zero_add, Nat.reduceAdd, if_pos h2,
    List.length_append, if_pos h3]

/-- Where C4 does hold: when no message waits in the queue, a chat line read by a client's
handler and then one broadcaster pass write `name ++ ": " ++ line` once to the socket of
every client in the registry, in slot order, whichever of these writes fail. -/
theorem chat_line_fanout (s : Server) (fr : Frame) (A : client_t) (line : List Char)
    (hq : Filled s.messages []) (hne : line ≠ []) (hnul : NUL ∉ line)
    (hquit : line ≠ quitToken)
    (hlen : A.username.length + line.length + 3 ≤ BUFFER_SIZE) :
    ∃ s1 s2, activeStep s fr A line = .ok (s1, true) ∧ handleBroadcast s1 = .ok s2 ∧
      s2.out = s.out ++ fanOutText s.clients s.wfail (A.username ++ [':', ' '] ++ line) ∧
      pending s2.messages = [] := by
  have htake : line.take BUFFER_SIZE = line := List.take_of_length_le (by omega)
  have hc : cstr line = line := cstr_eq_self line hnul
  have hstep : activeStep s fr A line
      = .ok ({ s with
          mem := store s.mem fr.message (some (A.username ++ [':', ' '] ++ line))
          messages := messageQueueAddMessage s.messages fr.message A.id }, true) := by
    have h := activeStep_chat s fr A line (by rw [htake]; exact hne) (by rw [htake, hc]; exact hquit)
      (Or.inl (by rw [htake]; omega)) (by rw [htake, hc]; exact hlen)
    rw [htake, hc] at h
    exact h
  have hf := hq.add fr.message A.id (by decide)
  obtain ⟨s2, hd, hf2, ho, _⟩ :=
    Filled.drain (s := { s with
          mem := store s.mem fr.message (some (A.username ++ [':', ' '] ++ line))
          messages := messageQueueAddMessage s.messages fr.message A.id }) hf (by simp)
      (by intro p hp; simp only [List.nil_append, List.mem_singleton] at hp; simp [hp, store])
  refine ⟨_, s2, hstep, hd, ?_, hf2.pending⟩
  rw [ho]
  simp [passWrites, store]

set_option maxRecDepth 1000000 in
/-- C4 fails on the code: alice and bob are registered, alice's handler reads "hi\n" and then
"yo\n" before the broadcaster runs. Both queue cells point to the one `message` buffer of her
handler, so the pass writes "alice: yo\n" to bob twice and "alice: hi\n" never. -/
theorem second_line_overwrites_first :
    twoLinesThenPass = .ok ["alice: yo\n".toList, "alice: yo\n".toList] := by
  decide

/-! ## C5: a full message queue -/

set_option maxRecDepth 1000000 in
/-- C5 fails on the code: on a queue whose `MAX_MESSAGES` cells are all occupied,
`messageQueueAddMessage` returns with the queue unchanged, so the new message is not
pending. -/
theorem full_queue_drops_message :
    (pending fullQueue).length = MAX_MESSAGES ∧
      messageQueueAddMessage fullQueue 1000 7 = fullQueue ∧
      1000 ∉ pending (messageQueueAddMessage fullQueue 1000 7) := by
  decide

/-! ## C6: the quit token -/

theorem add_message_free (q : message_queue) (msg : Ptr) (id : Int)
    (h : ∃ k, k < MAX_MESSAGES ∧ q.messages[k]? = some none) :
    ∃ i, i < MAX_MESSAGES ∧ q.messages[i]? = some none ∧
      (∀ j : Nat, j < i → q.messages[j]? ≠ some none) ∧
      messageQueueAddMessage q msg id
        = { count := q.count + 1, messages := q.messages.set i (some msg), ids := q.ids.set i id } := by
  obtain ⟨k, hk, hknull⟩ := h
  cases hf : firstNull q.messages MAX_MESSAGES 0 with
  | none => exact absurd hknull (firstNull_none _ _ _ hf k (Nat.zero_le _) (by omega))
  | some i =>
    obtain ⟨_, hi, hnull, hlow⟩ := firstNull_some _ _ _ _ hf
    refine ⟨i, by omega, hnull, fun j hj => hlow j (Nat.zero_le _) hj, ?_⟩
    unfold messageQueueAddMessage
    rw [hf]

theorem lines_length (names : List (List Char)) (h : ∀ n ∈ names, n.length < MAX_USERNAME) :
    (names.flatMap (fun n => n ++ ['\n'])).length ≤ MAX_USERNAME * names.length := by
  induction names with
  | nil => simp
  | cons a l ih =>
    have h1 := h a (List.mem_cons_self _ _)
    have h2 := ih (fun n hn => h n (List.mem_cons_of_mem _ hn))
    simp only [List.flatMap_cons, List.length_append, List.length_cons, List.length_nil]
    unfold MAX_USERNAME at *
    omega

theorem roster_fold : ∀ (cs : List (Option client_t)) (buf : List Char),
    buf.length + ((cs.filterMap (fun cell => cell.map (fun c => c.username))).flatMap
      (fun n => n ++ ['\n'])).length + 1 ≤ BUFFER_SIZE →
    cs.foldlM rosterStep buf
      = .ok (buf ++ (cs.filterMap (fun cell => cell.map (fun c => c.username))).flatMap
          (fun n => n ++ ['\n']))
  | [], buf, _ => by simp [pure, Except.pure]
  | none :: cs, buf, h => by
    simp only [List.foldlM_cons, rosterStep, bind, Except.bind]
    exact roster_fold cs buf (by simpa using h)
  | some c :: cs, buf, h => by
    simp only [List.filterMap_cons, Option.map_some', List.flatMap_cons, List.length_append,
      List.length_cons, List.length_nil] at h
    have h1 : buf.length + c.username.length + 1 ≤ BUFFER_SIZE := by omega
    have h2 : (buf ++ c.username).length + ['\n'].length + 1 ≤ BUFFER_SIZE := by
      simp only [List.length_append, List.length_cons, List.length_nil]; omega
    simp only [List.foldlM_cons, rosterStep, strncat, if_pos h1, if_pos h2, bind, Except.bind]
    rw [roster_fold cs _ (by simp only [List.length_append, List.length_cons, List.length_nil]; omega)]
    simp

theorem names_length_le (q : client_queue) : (clientQueueNames q).length ≤ MAX_CLIENTS := by
  unfold clientQueueNames
  have := List.length_filterMap_le (fun cell : Option client_t => cell.map (fun c => c.username))
    (cells q.data MAX_CLIENTS)
  simpa [cells] using this

theorem roster_eq (q : client_queue) (h : ∀ n ∈ clientQueueNames q, n.length < MAX_USERNAME) :
    roster q = .ok (rosterText (clientQueueNames q)) := by
  have hl := lines_length _ h
  have hn := names_length_le q
  have hmul : MAX_USERNAME * (clientQueueNames q).length ≤ MAX_USERNAME * MAX_CLIENTS :=
    Nat.mul_le_mul_left _ hn
  have hh : onlineHeader.length = 9 := by decide
  have hfit : ([] : List Char).length + onlineHeader.length + 1 ≤ BUFFER_SIZE := by
    rw [hh]; decide
  unfold roster
  simp only [strncat, if_pos hfit, List.nil_append]
  rw [roster_fold]
  · rfl
  · have : ((clientQueueNames q).flatMap (fun n => n ++ ['\n'])).length ≤ 240 := by
      have e : MAX_USERNAME * MAX_CLIENTS = 240 := by decide
      omega
    unfold clientQueueNames at this
    rw [hh]
    unfold BUFFER_SIZE
    omega

theorem welcomeAnnounce_eq (s : Server) (buf : Ptr) (client : client_t)
    (hname : client.username.length < MAX_USERNAME) :
    welcomeAnnounce s buf client
      = .ok { s with
          mem := store s.mem buf (some (client.username ++ hello))
          messages := messageQueueAddMessage s.messages buf client.id } := by
  have hh : hello.length = 23 := by decide
  have h1 : client.username.length + 1 ≤ BUFFER_SIZE := by
    unfold MAX_USERNAME at hname; unfold BUFFER_SIZE; omega
  have h2 : client.username.length + hello.length + 1 ≤ BUFFER_SIZE := by
    unfold MAX_USERNAME at hname; unfold BUFFER_SIZE; rw [hh]; omega
  unfold welcomeAnnounce
  simp only [strncat, List.length_nil, Nat.zero_add, List.nil_append, if_pos h1, if_pos h2]

theorem welcomeClient_eq (s : Server) (buf : Ptr) (client : client_t)
    (hname : client.username.length < MAX_USERNAME)
    (hnames : ∀ n ∈ clientQueueNames s.clients, n.length < MAX_USERNAME) :
    welcomeClient s buf client
      = .ok { s with
          mem := store (store s.mem buf (some (client.username ++ hello))) buf none
          messages := messageQueueAddMessage s.messages buf client.id
          out := s.out ++ [{ fd := client.sockfd, data := rosterText (clientQueueNames s.clients),
                             failed := s.wfail client.sockfd }] } := by
  unfold welcomeClient
  simp only [welcomeAnnounce_eq s buf client hname, roster_eq s.clients hnames]

/-- C7 as stated fails: when "alice" joins an empty room the roster written to her socket is
"Online: \nalice\n" (the header has a blank before the newline and her own name is listed),
not "Online:\n". -/
theorem alice_roster_lists_alice :
    Except.map (fun p => p.1.out) aliceJoins
        = .ok [{ fd := 4, data := "Online: \nalice\n".toList, failed := false }] ∧
      Except.map (fun p => p.1.out) aliceJoins
        ≠ .ok [{ fd := 4, data := "Online:\n".toList, failed := false }] := by
  decide

/-- C7, amended: `welcomeClient` writes to the new client's socket, once, the header
"Online: \n" followed by the names of all clients in the registry at that moment, one per
line in slot order; the new client, registered just before, is among them. When "alice" joins
an empty room her roster is "Online: \nalice\n", and when "bob" joins next his roster is
"Online: \nalice\nbob\n". -/
theorem roster_sent (s : Server) (buf : Ptr) (client : client_t)
    (hname : client.username.length < MAX_USERNAME)
    (hnames : ∀ n ∈ clientQueueNames s.clients, n.length < MAX_USERNAME) :
    (∃ s1, welcomeClient s buf client = .ok s1 ∧
      s1.out = s.out ++ [{ fd := client.sockfd,
                           data := onlineHeader ++
                             (clientQueueNames s.clients).flatMap (fun n => n ++ ['\n']),
                           failed := s.wfail client.sockfd }] ∧
      s1.clients = s.clients) ∧
    (∀ i : Nat, i < MAX_CLIENTS → s.clients.data[i]? = some (some client) →
      client.username ∈ clientQueueNames s.clients) ∧
    Except.map (fun p => p.1.out) aliceJoins
      = .ok [{ fd := 4, data := "Online: \nalice\n".toList, failed := false }] ∧
    Except.map (fun p => p.1.out.drop 1) bobJoins
      = .ok [{ fd := 5, data := "Online: \nalice\nbob\n".toList, failed := false }] := by
  refine ⟨⟨_, welcomeClient_eq s buf client hname hnames, rfl, rfl⟩, ?_, ?_, ?_⟩
  rotate_left
  · decide
  · decide
  intro i hi hcell
  unfold clientQueueNames
  rw [List.mem_filterMap]
  refine ⟨some client, ?_, rfl⟩
  unfold cells
  rw [List.mem_map]
  exact ⟨i, List.mem_range.mpr hi, by rw [hcell]; rfl⟩

/-- Witness for C7 amended: dave is welcomed in a room that holds alice and carol. -/
theorem roster_sent_witness :
    ∃ s1, welcomeClient gapServer 7 dave = .ok s1 ∧
      s1.out = gapServer.out ++ [{ fd := dave.sockfd,
                                   data := onlineHeader ++
                                     (clientQueueNames gapServer.clients).flatMap
                                       (fun n => n ++ ['\n']),
                                   failed := gapServer.wfail dave.sockfd }] ∧
      s1.clients = gapServer.clients :=
  (roster_sent gapServer 7 dave (by decide) (by decide)).1

/-! ## C8: the join announcement -/

/-- C8 as stated fails: the join announcements that `welcomeClient` queues for alice and bob,
registered in the slots 0 and 1, carry the origin ids 0 and 1, their slot ids, not the
sentinel -1. -/
theorem join_origin_is_slot_id :
    Except.map (fun p => (pending p.1.messages, p.1.messages.ids.take 2, p.2.1.id, p.2.2.id))
        bobJoins
      = .ok ([aliceFrame.welcome, bobFrame.welcome], [0, 1], 0, 1) ∧
    Except.map (fun p => p.1.messages.ids.take 2) bobJoins ≠ .ok [-1, -1] := by
  decide

/-- The pointer that `welcomeClient` queues outlives its buffer: once alice has joined a fresh
server, the broadcaster pass that takes her join announcement from the queue reads a buffer
that is no longer live. -/
theorem join_pointer_dangles :
    (match aliceJoins with
      | .error e => (Except.error e : Except Fault (List WriteCall))
      | .ok (s1, _) => Except.map (fun (s2 : Server) => s2.out) (handleBroadcast s1))
      = .error .dangling := by
  decide

/-- C8, amended: `welcomeClient` makes one call of `messageQueueAddMessage`, with the
client's own id as origin, for its local buffer, which at that call holds
`name ++ " has entered the chat.\n"`; when the queue has a free cell exactly that one cell
changes, so exactly one join announcement is queued, with origin `client.id`. What is read
through the queued pointer after `welcomeClient` has returned is not part of the
statement. -/
theorem join_announcement (s : Server) (buf : Ptr) (client : client_t)
    (hname : client.username.length < MAX_USERNAME)
    (hnames : ∀ n ∈ clientQueueNames s.clients, n.length < MAX_USERNAME) :
    (∃ s0, welcomeAnnounce s buf client = .ok s0 ∧
      s0.mem buf = some (client.username ++ hello) ∧
      s0.messages = messageQueueAddMessage s.messages buf client.id) ∧
    ∃ s1, welcomeClient s buf client = .ok s1 ∧
      s1.messages = messageQueueAddMessage s.messages buf client.id ∧
      ((∃ k, k < MAX_MESSAGES ∧ s.messages.messages[k]? = some none) →
        ∃ i, i < MAX_MESSAGES ∧ s.messages.messages[i]? = some none ∧
          s1.messages.messages = s.messages.messages.set i (some buf) ∧
          s1.messages.ids = s.messages.ids.set i client.id ∧
          s1.messages.count = s.messages.count + 1) := by
  refine ⟨⟨_, welcomeAnnounce_eq s buf client hname, by simp [store], rfl⟩,
    _, welcomeClient_eq s buf client hname hnames, rfl, ?_⟩
  intro hfree
  obtain ⟨i, hi, hnull, _, heq⟩ := add_message_free s.messages buf client.id hfree
  refine ⟨i, hi, hnull, ?_, ?_, ?_⟩ <;> simp only [heq]

/-- Witness for C8 amended: carol, registered in cell 2, is welcomed. -/
theorem join_announcement_witness :
    (∃ s0, welcomeAnnounce gapServer 8 carol = .ok s0 ∧
      s0.mem 8 = some (carol.username ++ hello) ∧
      s0.messages = messageQueueAddMessage gapServer.messages 8 carol.id) ∧
    ∃ s1, welcomeClient gapServer 8 carol = .ok s1 ∧
      s1.messages = messageQueueAddMessage gapServer.messages 8 carol.id ∧
      ((∃ k, k < MAX_MESSAGES ∧ gapServer.messages.messages[k]? = some none) →
        ∃ i, i < MAX_MESSAGES ∧ gapServer.messages.messages[i]? = some none ∧
          s1.messages.messages = gapServer.messages.messages.set i (some 8) ∧
          s1.messages.ids = gapServer.messages.ids.set i carol.id ∧
          s1.messages.count = gapServer.messages.count + 1) :=
  join_announcement gapServer 8 carol (by decide) (by decide)

/-! ## C9: lowest free slot -/

theorem occupied_le (q : client_queue) : occupied q ≤ MAX_CLIENTS := by
  unfold occupied
  have := List.length_filter_le Option.isSome (cells q.data MAX_CLIENTS)
  simpa [cells] using this

theorem occupied_lt_of_free (q : client_queue) (hlen : q.data.length = MAX_CLIENTS) (i : Nat)
    (hi : q.data[i]? = some none) : occupied q < MAX_CLIENTS := by
  unfold occupied
  rw [cells_eq_self _ _ hlen]
  have hmem : (none : Option client_t) ∈ q.data := List.getElem?_mem hi
  have h := (List.length_filter_lt_length_iff_exists (p := Option.isSome) (l := q.data)).mpr
    ⟨none, hmem, by simp⟩
  rw [hlen] at h
  exact h

theorem add_at (q : client_queue) (c : client_t) (i : Nat) (hc : q.count ≠ (MAX_CLIENTS : Int))
    (hf : firstNull q.data MAX_CLIENTS 0 = some i) :
    clientQueueAddClient q c
      = .ok ({ count := q.count + 1, data := q.data.set i (some { c with id := (i : Int) }) },
             { c with id := (i : Int) }) := by
  unfold clientQueueAddClient
  rw [if_neg hc, hf]

/-- C9: in a registry state with a free slot, `clientQueueAddClient` gives the new client
the lowest free slot index: that cell was free, every lower cell is occupied, the client is
stored there with that id, all other cells are unchanged and the count grows by one. And after
`clientQueuePopClient` releases the slot `s` of a stored client, the next registration gets
slot `s` whenever all slots below `s` are occupied. -/
theorem lowest_free_slot (q : client_queue) (c : client_t) (hwf : q.wf) :
    ((∃ k, k < MAX_CLIENTS ∧ q.data[k]? = some none) →
      ∃ (i : Nat) (q1 : client_queue), clientQueueAddClient q c = .ok (q1, { c with id := (i : Int) }) ∧
        i < MAX_CLIENTS ∧ q.data[i]? = some none ∧
        (∀ j : Nat, j < i → ∃ d, q.data[j]? = some (some d)) ∧
        q1.data[i]? = some (some { c with id := (i : Int) }) ∧
        (∀ j : Nat, j ≠ i → q1.data[j]? = q.data[j]?) ∧
        q1.count = q.count + 1) ∧
    (∀ (d : client_t) (s : Nat), d.id = (s : Int) → q.data[s]? = some (some d) →
      (∀ j : Nat, j < s → ∃ e, q.data[j]? = some (some e)) →
      ∃ q1 q2, clientQueuePopClient q (some d) = .ok (q1, none) ∧ q1.data[s]? = some none ∧
        clientQueueAddClient q1 c = .ok (q2, { c with id := (s : Int) }) ∧
        q2.data[s]? = some (some { c with id := (s : Int) })) := by
  obtain ⟨hlen, hcount⟩ := hwf
  have hocc : ∀ (l : List (Option client_t)) (j : Nat), j < l.length → l[j]? ≠ some none →
      ∃ d, l[j]? = some (some d) := by
    intro l j hj hne
    rw [List.getElem?_eq_getElem hj] at hne ⊢
    cases hcell : l[j] with
    | none => rw [hcell] at hne; exact absurd rfl hne
    | some d => exact ⟨d, rfl⟩
  constructor
  · rintro ⟨k, hk, hknull⟩
    have hcnt : q.count ≠ (MAX_CLIENTS : Int) := by
      have := occupied_lt_of_free q hlen k hknull
      rw [hcount]; intro h; have := Int.ofNat_inj.mp h; omega
    cases hf : firstNull q.data MAX_CLIENTS 0 with
    | none =>
      exact absurd hknull (firstNull_none _ _ _ hf k (Nat.zero_le _) (by omega))
    | some i =>
      obtain ⟨_, hi, hnull, hlow⟩ := firstNull_some _ _ _ _ hf
      have hi2 : i < q.data.length := by omega
      refine ⟨i, _, add_at q c i hcnt hf, by omega, hnull, ?_, ?_, ?_, rfl⟩
      · intro j hj
        exact hocc q.data j (by omega) (hlow j (Nat.zero_le _) hj)
      · simp [List.getElem?_set_self hi2]
      · intro j hj
        simp [List.getElem?_set_ne (Ne.symm hj)]
  · intro d s hid hds hbelow
    have hs : s < q.data.length := by
      by_contra hcon
      rw [List.getElem?_eq_none (by omega)] at hds
      cases hds
    have hpop : clientQueuePopClient q (some d)
        = .ok ({ count := q.count - 1, data := q.data.set s none }, none) := by
      unfold clientQueuePopClient
      simp only
      rw [if_pos ⟨by rw [hid]; exact Int.natCast_nonneg s, by rw [hid]; exact_mod_cast (by omega : s < MAX_CLIENTS)⟩]
      simp [hid]
    have hcnt : q.count - 1 ≠ (MAX_CLIENTS : Int) := by
      have := occupied_le q
      rw [hcount]; omega
    have hf : firstNull (q.data.set s none) MAX_CLIENTS 0 = some s := by
      apply firstNull_lowest
      · omega
      · omega
      · simp [List.getElem?_set_self hs]
      · intro j _ hj
        rw [List.getElem?_set_ne (by omega)]
        obtain ⟨e, he⟩ := hbelow j hj
        rw [he]; simp
    refine ⟨_, _, hpop, by simp [List.getElem?_set_self hs], add_at _ c s hcnt hf, ?_⟩
    simp [List.getElem?_set_self hs]

/-- Witness for C9: dave joins a registry whose cell 1 is free, and carol's slot 2 is
released and taken again after cell 1 was filled. -/
theorem lowest_free_slot_witness :
    (∃ (i : Nat) (q1 : client_queue),
      clientQueueAddClient gapRegistry dave = .ok (q1, { dave with id := (i : Int) }) ∧
        i < MAX_CLIENTS ∧ gapRegistry.data[i]? = some none ∧
        (∀ j : Nat, j < i → ∃ d, gapRegistry.data[j]? = some (some d)) ∧
        q1.data[i]? = some (some { dave with id := (i : Int) }) ∧
        (∀ j : Nat, j ≠ i → q1.data[j]? = gapRegistry.data[j]?) ∧
        q1.count = gapRegistry.count + 1) ∧
    (∃ q1 q2, clientQueuePopClient gapRegistry
        (some { dave with id := 0, sockfd := 4, username := "alice".toList })
        = .ok (q1, none) ∧ q1.data[0]? = some none ∧
      clientQueueAddClient q1 dave = .ok (q2, { dave with id := ((0 : Nat) : Int) }) ∧
      q2.data[0]? = some (some { dave with id := ((0 : Nat) : Int) })) :=
  ⟨(lowest_free_slot gapRegistry dave (by decide)).1 ⟨1, by decide, by decide⟩,
   (lowest_free_slot gapRegistry dave (by decide)).2
     { dave with id := 0, sockfd := 4, username := "alice".toList } 0 rfl (by decide)
     (fun j hj => absurd hj (Nat.not_lt_zero j))⟩

/-! ## C10: length of the stored name -/

/-- C10 fails on the code: for a name of 25 characters read at the handshake, `clientInit`
copies all of it with `strcpy` into the `MAX_USERNAME`-byte field, past its end: the name is
neither rejected nor truncated. -/
theorem long_name_overflows :
    (List.replicate 25 'a').length ≤ BUFFER_SIZE ∧
      MAX_USERNAME - 1 < (cstr ((List.replicate 25 'a').take BUFFER_SIZE)).length ∧
      clientInit 4 (cstr ((List.replicate 25 'a').take BUFFER_SIZE)) = .error .overflow ∧
      Except.map (fun p => p.2.username)
        (joinClient (freshServer noFail) aliceFrame 4 (List.replicate 25 'a'))
        = .error .overflow := by
  decide

/-! ## C11: the registry invariant -/

theorem isSome_count_set {α : Type} : ∀ (l : List (Option α)) (i : Nat) (x : Option α)
    (h : i < l.length),
    ((l.set i x).filter Option.isSome).length + (if (l[i]).isSome then 1 else 0)
      = (l.filter Option.isSome).length + (if x.isSome then 1 else 0)
  | [], _, _, h => by simp at h
  | a :: l, 0, x, _ => by
    cases a <;> cases x <;> simp [List.filter_cons]
  | a :: l, i + 1, x, h => by
    have ih := isSome_count_set l i x (by simpa using h)
    cases a <;> simp [List.filter_cons] at ih ⊢ <;> omega

theorem occupied_eq (q : client_queue) (h : q.data.length = MAX_CLIENTS) :
    occupied q = (q.data.filter Option.isSome).length := by
  unfold occupied
  rw [cells_eq_self _ _ h]

theorem occupied_set (q : client_queue) (h : q.data.length = MAX_CLIENTS) (i : Nat) (x : Option client_t)
    (count : Int) (hi : i < q.data.length) :
    occupied { count := count, data := q.data.set i x } + (if (q.data[i]).isSome then 1 else 0)
      = occupied q + (if x.isSome then 1 else 0) := by
  rw [occupied_eq _ (by simpa using h), occupied_eq q h]
  exact isSome_count_set q.data i x hi

theorem set_none_of_none {α : Type} : ∀ (l : List (Option α)) (i : Nat),
    l[i]? = some none → l.set i none = l
  | [], _, h => by simp at h
  | a :: l, 0, h => by
    simp only [List.getElem?_cons_zero, Option.some.injEq] at h
    simp [h]
  | a :: l, i + 1, h => by
    simp only [List.getElem?_cons_succ] at h
    simp [set_none_of_none l i h]

theorem exists_free_of_lt (q : client_queue) (hlen : q.data.length = MAX_CLIENTS)
    (h : occupied q < MAX_CLIENTS) : ∃ k, k < MAX_CLIENTS ∧ q.data[k]? = some none := by
  rw [occupied_eq q hlen, ← hlen] at h
  obtain ⟨x, hx, hnot⟩ := List.length_filter_lt_length_iff_exists.mp h
  obtain ⟨k, hk, hget⟩ := List.getElem_of_mem hx
  refine ⟨k, by omega, ?_⟩
  rw [List.getElem?_eq_getElem hk, hget]
  cases x with
  | none => rfl
  | some c => simp at hnot

/-- The release of an already removed client through the same pointer: `free(c)` ended the
life of the struct at the first release, so the second call reads `c->id` from freed
memory. -/
theorem double_pop_reads_freed : doublePop = .error .dangling := by
  decide

/-- C11 as stated fails. In a registry that satisfies the invariant, with clients in the
cells 0 and 2, a `clientQueuePopClient` call for a live client whose id names the empty
cell 1 leaves the cells as they are and still decrements the count: count 1 with two cells
occupied, so the invariant is broken. And the invariant does not hold initially when a cell
that `clientQueueInit` does not write is not `NULL`. -/
theorem pop_empty_slot_breaks_invariant :
    registryInv gapRegistry ∧
      clientQueuePopClient gapRegistry (some { id := 1, sockfd := 9, username := "dave".toList })
        = .ok ({ count := 1, data := gapRegistry.data }, none) ∧
      ¬ registryInv { count := 1, data := gapRegistry.data } ∧
      dirtyCells.length = MAX_CLIENTS ∧ ¬ registryInv (clientQueueInit dirtyCells) := by
  decide

/-- C11, amended: the registry invariant (count = number of occupied cells and
`0 <= count <= MAX_CLIENTS`) holds for the registry that `clientQueueInit` leaves when the
cells it does not write are `NULL`; every `clientQueueAddClient` call on a registry that
satisfies it either waits (when the count is `MAX_CLIENTS`) or returns a registry that
satisfies it, with the count one higher; every `clientQueuePopClient` call for a live client
stored in the cell named by its id returns a registry that satisfies it, with the count one
lower. A `clientQueuePopClient` call for a cell that is already empty is not a no-op: for a
live client whose id names an empty cell it leaves the cells as they are but still
decrements the count, so the invariant no longer holds; for a client that was already
released it reads the freed struct. -/
theorem registry_invariant :
    registryInv (clientQueueInit (List.replicate MAX_CLIENTS none)) ∧
    (∀ (q : client_queue) (c : client_t), registryInv q →
      (q.count = (MAX_CLIENTS : Int) ∧ clientQueueAddClient q c = .error .blocked) ∨
      (∃ (i : Nat) (q1 : client_queue),
        clientQueueAddClient q c = .ok (q1, { c with id := (i : Int) }) ∧
          registryInv q1 ∧ q1.count = q.count + 1)) ∧
    (∀ (q : client_queue) (c : client_t), registryInv q → stored q c →
      ∃ q1, clientQueuePopClient q (some c) = .ok (q1, none) ∧ registryInv q1 ∧
        q1.count = q.count - 1) ∧
    (∀ (q : client_queue) (c : client_t), registryInv q →
      0 ≤ c.id → c.id < (MAX_CLIENTS : Int) → q.data[c.id.toNat]? = some none →
      ∃ q1, clientQueuePopClient q (some c) = .ok (q1, none) ∧ q1.data = q.data ∧
        q1.count = q.count - 1 ∧ ¬ registryInv q1) ∧
    (∀ (q : client_queue), clientQueuePopClient q none = .error .dangling) := by
  refine ⟨by decide, ?_, ?_, ?_, fun _ => rfl⟩
  · intro q c ⟨hlen, hcount, _, hle⟩
    by_cases hc : q.count = (MAX_CLIENTS : Int)
    · left
      refine ⟨hc, ?_⟩
      unfold clientQueueAddClient
      rw [if_pos hc]
    · right
      have hocc : occupied q < MAX_CLIENTS := by
        have := occupied_le q
        rw [hcount] at hc
        have hne : occupied q ≠ MAX_CLIENTS := fun h => hc (by rw [h])
        omega
      obtain ⟨k, hk, hknull⟩ := exists_free_of_lt q hlen hocc
      cases hf : firstNull q.data MAX_CLIENTS 0 with
      | none => exact absurd hknull (firstNull_none _ _ _ hf k (Nat.zero_le _) (by omega))
      | some i =>
        obtain ⟨_, hi, hnull, _⟩ := firstNull_some _ _ _ _ hf
        have hi2 : i < q.data.length := by omega
        have hcell : q.data[i] = none := by
          rw [List.getElem?_eq_getElem hi2] at hnull
          exact Option.some.inj hnull
        have hset := occupied_set q hlen i (some { c with id := (i : Int) }) (q.count + 1) hi2
        rw [hcell] at hset
        simp only [Option.isSome_none, Bool.false_eq_true, if_false, Option.isSome_some,
          if_true, Nat.add_zero] at hset
        refine ⟨i, _, add_at q c i hc hf, ⟨by simpa using hlen, ?_, ?_, ?_⟩, rfl⟩
        · show q.count + 1 = _
          rw [hset, hcount]; push_cast; rfl
        · show 0 ≤ q.count + 1
          omega
        · show q.count + 1 ≤ _
          rw [hcount]; omega
  · intro q c ⟨hlen, hcount, _, _⟩ ⟨hid0, hcell⟩
    have hi : c.id.toNat < q.data.length := by
      by_contra hcon
      rw [List.getElem?_eq_none (by omega)] at hcell
      cases hcell
    have hid1 : c.id < (MAX_CLIENTS : Int) := by omega
    have hget : q.data[c.id.toNat] = some c := by
      rw [List.getElem?_eq_getElem hi] at hcell
      exact Option.some.inj hcell
    have hset := occupied_set q hlen c.id.toNat none (q.count - 1) hi
    rw [hget] at hset
    simp only [Option.isSome_none, Bool.false_eq_true, if_false, Option.isSome_some,
      if_true, Nat.add_zero] at hset
    refine ⟨{ count := q.count - 1, data := q.data.set c.id.toNat none }, ?_,
      ⟨by simpa using hlen, ?_, ?_, ?_⟩, rfl⟩
    · unfold clientQueuePopClient
      simp only
      rw [if_pos ⟨hid0, hid1⟩]
    · show q.count - 1 = _
      omega
    · show 0 ≤ q.count - 1
      omega
    · show q.count - 1 ≤ _
      omega
  · intro q c ⟨hlen, hcount, _, _⟩ hid0 hid1 hcell
    have hsame : q.data.set c.id.toNat none = q.data := set_none_of_none _ _ hcell
    refine ⟨{ count := q.count - 1, data := q.data.set c.id.toNat none }, ?_, hsame, rfl, ?_⟩
    · unfold clientQueuePopClient
      simp only
      rw [if_pos ⟨hid0, hid1⟩]
    · rintro ⟨_, hc2, _, _⟩
      have hocc : occupied { count := q.count - 1, data := q.data.set c.id.toNat none }
          = occupied q := by
        unfold occupied
        simp only [hsame]
      rw [hocc] at hc2
      have h3 : q.count - 1 = q.count := hc2.trans hcount.symm
      omega

/-- Witness for C11 amended: dave joins a registry with two clients, carol, stored in cell 2,
is released, and a release for the empty cell 5 breaks the invariant. -/
theorem registry_invariant_witness :
    ((gapRegistry.count = (MAX_CLIENTS : Int) ∧
        clientQueueAddClient gapRegistry dave = .error .blocked) ∨
      (∃ (i : Nat) (q1 : client_queue),
        clientQueueAddClient gapRegistry dave = .ok (q1, { dave with id := (i : Int) }) ∧
          registryInv q1 ∧ q1.count = gapRegistry.count + 1)) ∧
    (∃ q1, clientQueuePopClient gapRegistry (some carol) = .ok (q1, none) ∧ registryInv q1 ∧
      q1.count = gapRegistry.count - 1) ∧
    (∃ q1, clientQueuePopClient gapRegistry (some { dave with id := 5 }) = .ok (q1, none) ∧
      q1.data = gapRegistry.data ∧ q1.count = gapRegistry.count - 1 ∧ ¬ registryInv q1) :=
  ⟨registry_invariant.2.1 gapRegistry dave (by decide),
   registry_invariant.2.2.1 gapRegistry carol (by decide) (by decide),
   registry_invariant.2.2.2.1 gapRegistry { dave with id := 5 } (by decide) (by decide)
     (by decide) (by decide)⟩

end CChat
